import Mathlib

/-!
Shallow embedding of the `backend/app` chat service (config.py, models.py,
crud.py, security.py, main.py) and proofs about its behaviour.

Conventions:
* Database tables are Lean lists kept in insertion order, together with the
  autoincrement counters (`next_*_id`).  SQLAlchemy's `order_by(col.desc())`
  is modelled by `List.insertionSort` with the corresponding descending
  relation, and `.first()` / `scalar_one_or_none()` by `head?` / `find?`.
* Timestamps (`datetime` values, always UTC; `main.py` normalises naive
  stored values to UTC before subtracting) are modelled as `ℚ` seconds since
  the epoch, so that sub-second ages compare exactly like `timedelta`s.
* External primitives (bcrypt, the JWT encoder, the outbound HTTP client)
  are modelled at their call boundary; the parts of their behaviour the
  proofs rely on are stated in the corresponding doc comments.
-/

namespace ChatApp

/-- Relevant fields of `config.Settings` (config.py), with the literal
defaults from the source. -/
structure Settings where
  n8n_webhook_url : Option String
  n8n_callback_token : Option String
  jwt_secret_key : String
  jwt_algorithm : String
  access_token_exp_minutes : Int
  refresh_token_exp_minutes : Int
  bcrypt_rounds : Nat
deriving Repr, DecidableEq

/-- The default `Settings()` values from config.py
(`refresh_token_exp_minutes = 60 * 24 * 7`). -/
def defaultSettings : Settings :=
  { n8n_webhook_url := none
    n8n_callback_token := none
    jwt_secret_key := "change-me"
    jwt_algorithm := "HS256"
    access_token_exp_minutes := 15
    refresh_token_exp_minutes := 60 * 24 * 7
    bcrypt_rounds := 12 }

/-! ## Data model (models.py) -/

/-- Row of table `users`. -/
structure User where
  id : Nat
  email : String
  full_name : String
  hashed_password : String
  created_at : ℚ
deriving Repr, DecidableEq

/-- Row of table `messages`. -/
structure Message where
  id : Nat
  author : String
  content : String
  direction : String
  created_at : ℚ
  user_id : Nat
deriving Repr, DecidableEq

/-- Row of table `pending_replies`. -/
structure PendingReply where
  id : Nat
  user_id : Nat
  user_message_id : Nat
  bot_message_id : Option Nat
  status : String
  created_at : ℚ
  updated_at : ℚ
deriving Repr, DecidableEq

/-- The SQLite database: the three tables in insertion order plus the
autoincrement counters for their integer primary keys. -/
structure DB where
  users : List User
  messages : List Message
  pending_replies : List PendingReply
  next_user_id : Nat
  next_message_id : Nat
  next_pending_id : Nat
deriving Repr, DecidableEq

def emptyDB : DB :=
  { users := [], messages := [], pending_replies := []
    next_user_id := 1, next_message_id := 1, next_pending_id := 1 }

/-! ## Security (security.py) -/

/-- Python's `int(...)` applied to a float/`timestamp()` value truncates
toward zero. -/
def pyInt (q : ℚ) : Int := if 0 ≤ q then ⌊q⌋ else ⌈q⌉

/-- JWT payload built by `_create_token`: with `extra = None` at both call
sites, it carries exactly the four claims `sub`, `type`, `iat`, `exp`;
`extra` records any merged-in additional claims (always `[]` here). -/
structure TokenPayload where
  sub : String
  type : String
  iat : Int
  exp : Int
  extra : List (String × String)
deriving Repr, DecidableEq

/-- Result of `jwt.encode(payload, secret, algorithm)`: a token signed with
`secret` using `algorithm`, carrying `payload`.  The encoder itself is the
external `jwt` library; the record keeps exactly what the code passes it. -/
structure SignedToken where
  payload : TokenPayload
  secret : String
  algorithm : String
deriving Repr, DecidableEq

/-- `_create_token` (security.py): `now = datetime.now(timezone.utc)` is the
argument `nowTs` (its POSIX timestamp, in seconds);
`iat = int(now.timestamp())`, `exp = int((now + timedelta(minutes=expires_minutes)).timestamp())`. -/
def createTokenAux (settings : Settings) (subject : String) (expires_minutes : Int)
    (token_type : String) (extra : List (String × String)) (nowTs : ℚ) : SignedToken :=
  { payload :=
      { sub := subject
        type := token_type
        iat := pyInt nowTs
        exp := pyInt (nowTs + expires_minutes * 60)
        extra := extra }
    secret := settings.jwt_secret_key
    algorithm := settings.jwt_algorithm }

/-- `create_access_token` (security.py). -/
def create_access_token (settings : Settings) (user_id : Nat) (nowTs : ℚ) : SignedToken :=
  createTokenAux settings (toString user_id) settings.access_token_exp_minutes "access" [] nowTs

/-- `create_refresh_token` (security.py). -/
def create_refresh_token (settings : Settings) (user_id : Nat) (nowTs : ℚ) : SignedToken :=
  createTokenAux settings (toString user_id) settings.refresh_token_exp_minutes "refresh" [] nowTs

/-- Shape of a well-formed bcrypt hash: the modular-crypt `$2` prefix (checked
on the character list) and the fixed 60-character length `bcrypt.hashpw`
produces. -/
def isBcryptHash (s : String) : Bool :=
  s.data.take 2 == ['$', '2'] && s.length == 60

/-- Modelled from the bcrypt library's documented behaviour (the library is an
external dependency, not part of this repository): `bcrypt.checkpw` compares
the password against a well-formed stored hash and returns whether they match
(the comparison itself, an external primitive, is the parameter `pwMatches`),
and raises `ValueError("Invalid salt")` when the stored value is not a valid
bcrypt hash.  `Except.error` is the raised exception. -/
def bcrypt_checkpw (pwMatches : String → String → Bool) (password hashed : String) :
    Except String Bool :=
  if isBcryptHash hashed then .ok (pwMatches password hashed) else .error "Invalid salt"

/-- `verify_password` (security.py, lines 25-26): a direct call to
`bcrypt.checkpw` with no exception handling, so a library error propagates. -/
def verify_password (pwMatches : String → String → Bool) (password hashed : String) :
    Except String Bool :=
  bcrypt_checkpw pwMatches password hashed

/-! ## Access layer (crud.py) -/

/-- Python's `str.lower()` on the ASCII range of an email address: lower-case
every character (the same characterwise map as `String.toLower`, written on
the character list). -/
def pyLower (s : String) : String := ⟨s.data.map Char.toLower⟩

/-- `schemas.UserCreate`. -/
structure UserCreate where
  email : String
  full_name : String
  password : String
deriving Repr, DecidableEq

/-- `create_user` (crud.py): stores `user_in.email.lower()`; the password is
hashed by the Security module (`hashPassword` stands for `hash_password`,
whose output is the external bcrypt primitive's). -/
def create_user (hashPassword : String → String) (db : DB) (user_in : UserCreate)
    (now : ℚ) : DB × User :=
  let user : User :=
    { id := db.next_user_id
      email := pyLower user_in.email
      full_name := user_in.full_name
      hashed_password := hashPassword user_in.password
      created_at := now }
  ({ db with users := db.users ++ [user], next_user_id := db.next_user_id + 1 }, user)

/-- `get_user_by_email` (crud.py): `where(User.email == email.lower())`,
`scalar_one_or_none()` (emails are unique, so the first match is the one). -/
def get_user_by_email (db : DB) (email : String) : Option User :=
  db.users.find? (fun u => u.email == pyLower email)

/-- `authenticate_user` (crud.py).  An exception escaping `verify_password`
propagates out of the function (there is no handler), hence the `Except`. -/
def authenticate_user (pwMatches : String → String → Bool) (db : DB)
    (email password : String) : Except String (Option User) :=
  match get_user_by_email db email with
  | none => .ok none
  | some user =>
    match verify_password pwMatches password user.hashed_password with
    | .error e => .error e
    | .ok b => if b then .ok (some user) else .ok none

/-- `create_message` (crud.py). -/
def create_message (db : DB) (user_id : Nat) (author content direction : String)
    (now : ℚ) : DB × Message :=
  let message : Message :=
    { id := db.next_message_id, author, content, direction, created_at := now, user_id }
  ({ db with messages := db.messages ++ [message]
             next_message_id := db.next_message_id + 1 }, message)

/-- `order_by(Message.created_at.desc())`: `a` may precede `b`. -/
def msgDesc (a b : Message) : Prop := b.created_at ≤ a.created_at

instance : DecidableRel msgDesc :=
  fun a b => inferInstanceAs (Decidable (b.created_at ≤ a.created_at))

/-- `list_messages` (crud.py): select the user's messages ordered by
`created_at` descending, `limit(limit)`, then return them reversed
("Retourner dans l'ordre chronologique"). -/
def list_messages (db : DB) (user_id : Nat) (limit : Nat := 50) : List Message :=
  let rows := ((db.messages.filter (fun m => m.user_id == user_id)).insertionSort
    msgDesc).take limit
  rows.reverse

/-- `delete_message` (crud.py): `session.delete` removes the row by primary key. -/
def delete_message (db : DB) (message : Message) : DB :=
  { db with messages := db.messages.filter (fun m => m.id != message.id) }

/-- `order_by(PendingReply.created_at.desc())`: `a` may precede `b`. -/
def pendDesc (a b : PendingReply) : Prop := b.created_at ≤ a.created_at

instance : DecidableRel pendDesc :=
  fun a b => inferInstanceAs (Decidable (b.created_at ≤ a.created_at))

/-- `get_pending_reply_by_user` (crud.py): the user's rows, optionally
restricted to status `"pending"`, ordered by `created_at` descending,
`.first()`. -/
def get_pending_reply_by_user (db : DB) (user_id : Nat)
    (only_pending : Bool := true) : Option PendingReply :=
  let rows := db.pending_replies.filter (fun p => p.user_id == user_id)
  let rows := if only_pending then rows.filter (fun p => p.status == "pending") else rows
  ((rows.insertionSort pendDesc).head?)

/-- `get_pending_reply_by_id` (crud.py): by primary key, optionally also
requiring the owning user. -/
def get_pending_reply_by_id (db : DB) (pending_id : Nat)
    (user : Option User := none) : Option PendingReply :=
  db.pending_replies.find? (fun p =>
    p.id == pending_id &&
      (match user with | some u => p.user_id == u.id | none => true))

/-- `create_pending_reply` (crud.py): a fresh row with `status="pending"`
(and, per the model defaults, no bot message yet). -/
def create_pending_reply (db : DB) (user_id : Nat) (user_message_id : Nat)
    (now : ℚ) : DB × PendingReply :=
  let pending : PendingReply :=
    { id := db.next_pending_id, user_id, user_message_id
      bot_message_id := none, status := "pending", created_at := now, updated_at := now }
  ({ db with pending_replies := db.pending_replies ++ [pending]
             next_pending_id := db.next_pending_id + 1 }, pending)

/-- Persisting an updated `PendingReply` row: the row with the same primary
key is replaced (`session.add` + `commit` on a loaded row). -/
def updatePending (db : DB) (p : PendingReply) : DB :=
  { db with pending_replies := db.pending_replies.map (fun q => if q.id == p.id then p else q) }

/-- `complete_pending_reply` (crud.py): sets `bot_message_id` and `status`
(default `"completed"`); `updated_at` follows from the model's `onupdate`. -/
def complete_pending_reply (db : DB) (pending : PendingReply) (bot_message_id : Nat)
    (now : ℚ) (status : String := "completed") : DB × PendingReply :=
  let p := { pending with bot_message_id := some bot_message_id
                          status := status, updated_at := now }
  (updatePending db p, p)

/-- `fail_pending_reply` (crud.py): sets `status = "failed"`. -/
def fail_pending_reply (db : DB) (pending : PendingReply) (now : ℚ) : DB × PendingReply :=
  let p := { pending with status := "failed", updated_at := now }
  (updatePending db p, p)

/-- `delete_pending_reply` (crud.py): removes the row by primary key. -/
def delete_pending_reply (db : DB) (pending : PendingReply) : DB :=
  { db with pending_replies := db.pending_replies.filter (fun p => p.id != pending.id) }

/-- `get_pending_reply_by_message_id` (crud.py): `user_message_id` is unique,
so `scalar_one_or_none()` is the first (only) match. -/
def get_pending_reply_by_message_id (db : DB) (message_id : Nat) : Option PendingReply :=
  db.pending_replies.find? (fun p => p.user_message_id == message_id)

/-! ## Automation-service gateway (main.py, `forward_to_n8n`) -/

/-- An HTTP error response raised by a handler (`HTTPException`). -/
structure HTTPErr where
  statusCode : Nat
  detail : String
deriving Repr, DecidableEq

/-- Outcome of the external `httpx` POST to the webhook: either the client
raised a transport-level `httpx.HTTPError`, or a response came back with a
status code, raw text, and (when the content type is JSON) a parsed body. -/
inductive NetOutcome where
  | transportError (msg : String)
  | response (statusCode : Nat) (text : String) (jsonBody : Option (List (String × String)))
deriving Repr, DecidableEq

/-- What escapes `forward_to_n8n`: an `HTTPException` it raised itself
(500 misconfiguration, 502 webhook error) or an `httpx.HTTPError` from the
client call. -/
inductive FwdError where
  | httpException (statusCode : Nat) (detail : String)
  | httpxError (msg : String)
deriving Repr, DecidableEq

/-- `forward_to_n8n` (main.py, lines 44-60): missing webhook URL → 500;
transport error propagates; `raise_for_status()` raises for status ≥ 400,
turned into a 502 with the response text; otherwise the JSON body, or
`{"reply": response.text}` for non-JSON responses. -/
def forward_to_n8n (webhook_url : Option String) (net : NetOutcome) :
    Except FwdError (List (String × String)) :=
  match webhook_url with
  | none => .error (.httpException 500 "La variable N8N_WEBHOOK_URL n'est pas configurée.")
  | some _ =>
    match net with
    | .transportError msg => .error (.httpxError msg)
    | .response statusCode text jsonBody =>
      if 400 ≤ statusCode then
        .error (.httpException 502 ("Erreur du webhook n8n: " ++ text))
      else
        match jsonBody with
        | some body => .ok body
        | none => .ok [("reply", text)]

/-! ## HTTP API (main.py) -/

/-- `schemas.ChatRequest`. -/
structure ChatRequest where
  content : String
  user_id : Nat
deriving Repr, DecidableEq

/-- `schemas.N8nCallbackPayload` (`author` has pydantic default `"n8n"` but
may be sent as `null` or `""`). -/
structure N8nCallbackPayload where
  message_id : Nat
  reply : String
  author : Option String
deriving Repr, DecidableEq

/-- `schemas.ChatQueuedResponse`. -/
structure ChatQueuedResponse where
  user : Message
  pending_reply_id : Nat
deriving Repr, DecidableEq

/-- `schemas.PendingStatusResponse` (message rows in place of `MessageOut`;
`user` is an `Option` because the model looks the rows up by id). -/
structure PendingStatusResponse where
  id : Nat
  status : String
  user : Option Message
  bot : Option Message
deriving Repr, DecidableEq

/-- `serialize_pending` (main.py): renders the pending row with its user
message and, when present, its bot message. -/
def serialize_pending (db : DB) (pending : PendingReply) : PendingStatusResponse :=
  { id := pending.id
    status := pending.status
    user := db.messages.find? (fun m => m.id == pending.user_message_id)
    bot := pending.bot_message_id.bind (fun bid => db.messages.find? (fun m => m.id == bid)) }

/-- `register_user` (main.py, lines 76-81): duplicate (normalized) email →
400 conflict with no row created; otherwise `create_user`.  (The endpoint
then returns `issue_tokens(user)`; token contents are covered by
`create_access_token` / `create_refresh_token` above.) -/
def register_user (hashPassword : String → String) (db : DB) (payload : UserCreate)
    (now : ℚ) : DB × Except HTTPErr User :=
  if (get_user_by_email db payload.email).isSome then
    (db, .error ⟨400, "Cet email est déjà utilisé."⟩)
  else
    let r := create_user hashPassword db payload now
    (r.1, .ok r.2)

/-- The conflict/staleness phase at the start of `send_message` (main.py,
lines 134-152): look at the caller's most recent pending reply of any
status; a `"failed"` one is deleted at once; otherwise a row older than 60
seconds (naive `created_at` interpreted as UTC) is deleted; a younger one is
a 409 conflict.  Returns the database the submission proceeds from. -/
def conflictPhase (db : DB) (current_user_id : Nat) (now : ℚ) : Except HTTPErr DB :=
  match get_pending_reply_by_user db current_user_id false with
  | none => .ok db
  | some existing_pending =>
    if existing_pending.status == "failed" then
      .ok (delete_pending_reply db existing_pending)
    else
      if (60 : ℚ) < now - existing_pending.created_at then
        .ok (delete_pending_reply db existing_pending)
      else
        .error ⟨409, "Une réponse est déjà en attente pour cet utilisateur."⟩

/-- How the `except (httpx.HTTPError, HTTPException)` clause in
`send_message` re-raises: an `HTTPException` unchanged, anything else as a
502 with `str(exc)`. -/
def reraiseFwd : FwdError → HTTPErr
  | .httpException s d => ⟨s, d⟩
  | .httpxError msg => ⟨502, msg⟩

/-- `send_message` (main.py, lines 125-180), `POST /api/chat`.  `net` is the
outcome of the outbound webhook call.  Returns the resulting database
together with the response or the raised `HTTPException`. -/
def send_message (db : DB) (payload : ChatRequest) (current_user : User) (now : ℚ)
    (webhook_url : Option String) (net : NetOutcome) :
    DB × Except HTTPErr ChatQueuedResponse :=
  if payload.user_id != current_user.id then
    (db, .error ⟨403, "Utilisateur invalide pour ce token."⟩)
  else
    match conflictPhase db current_user.id now with
    | .error e => (db, .error e)
    | .ok db1 =>
      let r1 := create_message db1 current_user.id current_user.full_name
        payload.content "user" now
      let r2 := create_pending_reply r1.1 current_user.id r1.2.id now
      match forward_to_n8n webhook_url net with
      | .error exc =>
        let db4 := delete_pending_reply r2.1 r2.2
        let db5 := delete_message db4 r1.2
        (db5, .error (reraiseFwd exc))
      | .ok _ => (r2.1, .ok { user := r1.2, pending_reply_id := r2.2.id })

/-- `fail_pending` (main.py, lines 206-218), `POST /api/chat/pending/{id}/fail`. -/
def fail_pending (db : DB) (pending_id : Nat) (current_user : User) (now : ℚ) :
    DB × Except HTTPErr PendingStatusResponse :=
  match get_pending_reply_by_id db pending_id (some current_user) with
  | none => (db, .error ⟨404, "Réponse en attente introuvable."⟩)
  | some pending =>
    if pending.status != "pending" then
      (db, .error ⟨409, "Ce message a déjà été traité."⟩)
    else
      let r := fail_pending_reply db pending now
      (r.1, .ok (serialize_pending r.1 r.2))

/-- Python's `payload.author or "n8n"`: `None` and the empty string are both
falsy, so either yields `"n8n"`. -/
def authorOrDefault (author : Option String) (dflt : String) : String :=
  match author with
  | some s => if s == "" then dflt else s
  | none => dflt

/-- The guard `if settings.n8n_callback_token and callback_token != settings.n8n_callback_token`
(main.py, line 227): an unset — or empty, hence falsy — configured token
disables the check. -/
def callbackTokenRejected (cfgToken headerToken : Option String) : Bool :=
  match cfgToken with
  | none => false
  | some t => t != "" && headerToken != some t

/-- `receive_n8n_callback` (main.py, lines 221-245), `POST /api/chat/callback`. -/
def receive_n8n_callback (settings : Settings) (db : DB) (payload : N8nCallbackPayload)
    (callback_token : Option String) (now : ℚ) :
    DB × Except HTTPErr PendingStatusResponse :=
  if callbackTokenRejected settings.n8n_callback_token callback_token then
    (db, .error ⟨403, "Token de callback invalide."⟩)
  else
    match get_pending_reply_by_message_id db payload.message_id with
    | none => (db, .error ⟨404, "Message utilisateur introuvable."⟩)
    | some pending =>
      if pending.status != "pending" then
        (db, .error ⟨409, "Ce message a déjà été traité."⟩)
      else
        let r1 := create_message db pending.user_id
          (authorOrDefault payload.author "n8n") payload.reply "n8n" now
        let r2 := complete_pending_reply r1.1 pending r1.2.id now
        (r2.1, .ok (serialize_pending r2.1 r2.2))

/-! ## The state-mutating API operations, for reachability arguments.

`GET` endpoints (`/messages`, `/chat/pending`, `/auth/me`) and `/auth/login`
only run selects, so the mutating surface is: register, chat submission,
explicit failure report, and the callback.  `get_current_user` resolves the
bearer token to a `User` loaded by id (absent → 401, no state change). -/

inductive ApiOp where
  | register (hashPassword : String → String) (payload : UserCreate) (now : ℚ)
  | chat (payload : ChatRequest) (auth_user_id : Nat) (now : ℚ)
      (webhook_url : Option String) (net : NetOutcome)
  | failReport (pending_id : Nat) (auth_user_id : Nat) (now : ℚ)
  | callback (settings : Settings) (payload : N8nCallbackPayload)
      (callback_token : Option String) (now : ℚ)

/-- The database after one API operation (responses dropped). -/
def applyOp (db : DB) (op : ApiOp) : DB :=
  match op with
  | .register h p now => (register_user h db p now).1
  | .chat p uid now url net =>
    match db.users.find? (fun u => u.id == uid) with
    | none => db
    | some cu => (send_message db p cu now url net).1
  | .failReport pid uid now =>
    match db.users.find? (fun u => u.id == uid) with
    | none => db
    | some cu => (fail_pending db pid cu now).1
  | .callback s p tok now => (receive_n8n_callback s db p tok now).1

/-- The database after a sequence of API operations. -/
def applyOps (db : DB) (ops : List ApiOp) : DB := ops.foldl applyOp db

/-! ## Well-formedness predicates -/

/-- Primary keys behave like the autoincrement columns they model: every
stored id is below the table's counter, and pending-reply ids are distinct. -/
def IdsOK (db : DB) : Prop :=
  (∀ m ∈ db.messages, m.id < db.next_message_id) ∧
  (∀ p ∈ db.pending_replies, p.id < db.next_pending_id) ∧
  (db.pending_replies.map (fun p => p.id)).Nodup

/-- The per-row pending-reply invariant of the claim: a recognised status,
and a bot-message reference exactly for `"completed"`. -/
def PendingWF (p : PendingReply) : Prop :=
  (p.status = "pending" ∨ p.status = "completed" ∨ p.status = "failed") ∧
  (p.bot_message_id.isSome ↔ p.status = "completed")

/-- Databases the API maintains: sound ids and well-formed pending rows. -/
def DBWF (db : DB) : Prop :=
  IdsOK db ∧ ∀ p ∈ db.pending_replies, PendingWF p

/-! ## Concrete sample data (used by witnesses and concrete instances) -/

/-- A well-formed-looking stored bcrypt hash (60 characters, `$2b$` prefix). -/
def demoHash : String :=
  "$2b$12$abcdefghijklmnopqrstuvwxyzABCDEFGHIJKLMNOPQRSTUVWXYZ0"

/-- A stand-in for `hash_password` that always returns `demoHash`. -/
def demoHashFn : String → String := fun _ => demoHash

def aliceIn : UserCreate :=
  { email := "A@B.com", full_name := "Alice", password := "password123" }

/-- A database holding just the user registered from `aliceIn` (id 1). -/
def dbAlice : DB := (create_user demoHashFn emptyDB aliceIn 0).1

/-- Alice's five messages "1".."5", created at times 1..5 (ids 1..5). -/
def sampleHistoryDB : DB :=
  (create_message
    (create_message
      (create_message
        (create_message
          (create_message dbAlice 1 "Alice" "1" "user" 1).1
          1 "Alice" "2" "user" 2).1
        1 "Alice" "3" "user" 3).1
      1 "Alice" "4" "user" 4).1
    1 "Alice" "5" "user" 5).1

/-- A live pending reply of Alice's, created at time 0 (id 1, message id 1). -/
def pendingAt0 : PendingReply :=
  { id := 1, user_id := 1, user_message_id := 1, bot_message_id := none
    status := "pending", created_at := 0, updated_at := 0 }

/-- Alice's database with one inbound message and `pendingAt0` live. -/
def dbAlicePending : DB :=
  { dbAlice with
      messages := [{ id := 1, author := "Alice", content := "hello", direction := "user"
                     created_at := 0, user_id := 1 }]
      next_message_id := 2
      pending_replies := [pendingAt0]
      next_pending_id := 2 }

/-- A later pending reply of Alice's that already failed (id 2, message 2,
created at time 10). -/
def pendingFailedAt10 : PendingReply :=
  { id := 2, user_id := 1, user_message_id := 2, bot_message_id := none
    status := "failed", created_at := 10, updated_at := 10 }

/-- Alice's database holding two pending rows: the older, still-live
`pendingAt0` and the more recent `pendingFailedAt10`. -/
def dbTwoPendings : DB :=
  { dbAlice with
      messages := [{ id := 1, author := "Alice", content := "hello", direction := "user"
                     created_at := 0, user_id := 1 },
                   { id := 2, author := "Alice", content := "again", direction := "user"
                     created_at := 10, user_id := 1 }]
      next_message_id := 3
      pending_replies := [pendingAt0, pendingFailedAt10]
      next_pending_id := 3 }

/-- A short API session: Alice registers, submits a chat message (the
webhook call succeeds), and the automation service calls back with a
reply. -/
def demoOps : List ApiOp :=
  [.register demoHashFn aliceIn 0,
   .chat { content := "hello", user_id := 1 } 1 0 (some "http://n8n")
     (.response 200 "ok" none),
   .callback defaultSettings { message_id := 1, reply := "bonjour", author := none }
     none 1]

/-- The pending reply as it stands after `demoOps`: completed, with its bot
message reference set. -/
def completedRow : PendingReply :=
  { id := 1, user_id := 1, user_message_id := 1, bot_message_id := some 2
    status := "completed", created_at := 0, updated_at := 1 }

/-! ## General lemmas -/

/-- For a nonnegative timestamp, Python truncation is the floor. -/
theorem pyInt_of_nonneg {q : ℚ} (h : 0 ≤ q) : pyInt q = ⌊q⌋ := if_pos h

/-- Truncating `ts + m·60` for a nonnegative timestamp and minute count. -/
theorem pyInt_add_mul_sixty (ts : ℚ) (m : ℤ) (hts : 0 ≤ ts) (hm : 0 ≤ m) :
    pyInt (ts + (m : ℚ) * 60) = ⌊ts⌋ + m * 60 := by
  have hm' : (0 : ℚ) ≤ (m : ℚ) := by exact_mod_cast hm
  have hpos : (0 : ℚ) ≤ ts + (m : ℚ) * 60 := by nlinarith
  have hcast : ((m * 60 : ℤ) : ℚ) = (m : ℚ) * 60 := by push_cast; ring
  rw [pyInt, if_pos hpos, ← hcast, Int.floor_add_int]

/-- A row found by a `find?`-style query is in the table and satisfies the
predicate. -/
theorem find?_mem_and_pred {α} {p : α → Bool} {l : List α} {a : α}
    (h : l.find? p = some a) : a ∈ l ∧ p a = true :=
  ⟨List.mem_of_find?_eq_some h, List.find?_some h⟩

/-! ## C9: token issuance -/

/-- C9: every issued access and refresh token is signed with the configured
secret and algorithm, and its payload carries exactly `sub` = the user id
rendered as a string, `type` = `"access"` / `"refresh"`, `iat` = the issue
time in Unix seconds, and `exp` = the issue time plus the configured
lifetime in Unix seconds — 15 minutes for access and 10080 minutes for
refresh at the default settings. -/
theorem token_payload_contents (s : Settings) (uid : Nat) (ts : ℚ) (hts : 0 ≤ ts)
    (hacc : 0 ≤ s.access_token_exp_minutes) (href : 0 ≤ s.refresh_token_exp_minutes) :
    create_access_token s uid ts =
      { payload := { sub := toString uid, type := "access", iat := ⌊ts⌋
                     exp := ⌊ts⌋ + s.access_token_exp_minutes * 60, extra := [] }
        secret := s.jwt_secret_key, algorithm := s.jwt_algorithm } ∧
    create_refresh_token s uid ts =
      { payload := { sub := toString uid, type := "refresh", iat := ⌊ts⌋
                     exp := ⌊ts⌋ + s.refresh_token_exp_minutes * 60, extra := [] }
        secret := s.jwt_secret_key, algorithm := s.jwt_algorithm } ∧
    defaultSettings.access_token_exp_minutes = 15 ∧
    defaultSettings.refresh_token_exp_minutes = 10080 := by
  refine ⟨?_, ?_, rfl, rfl⟩ <;>
    simp only [create_access_token, create_refresh_token, createTokenAux,
      pyInt_of_nonneg hts, pyInt_add_mul_sixty ts _ hts hacc,
      pyInt_add_mul_sixty ts _ hts href]

/-- Witness for C9 at concrete inputs: issuing at Unix time 1700000000 for
user 7 under the default settings gives an access token expiring 900
seconds later. -/
theorem token_payload_contents_witness :
    (0 : ℚ) ≤ 1700000000 ∧
    (create_access_token defaultSettings 7 1700000000).payload.iat = 1700000000 ∧
    (create_access_token defaultSettings 7 1700000000).payload.exp = 1700000900 := by
  have h := token_payload_contents defaultSettings 7 1700000000 (by norm_num)
    (by decide) (by decide)
  refine ⟨by norm_num, ?_, ?_⟩ <;> rw [h.1] <;> norm_num [defaultSettings]

/-! ## C3: password verification on malformed stored hashes -/

/-- C3 counterexample: verifying any password against the malformed stored
hash `""` does not return a verification failure — the bcrypt error
propagates out of `verify_password` (there is no handler in security.py), so
the claim "returns a verification failure rather than raising" is false. -/
theorem verify_password_malformed_hash_raises :
    verify_password (fun _ _ => false) "password" "" = Except.error "Invalid salt" := rfl

/-- C3 (amended): password verification returns whether plaintext and stored
hash match when the stored hash is a well-formed bcrypt hash; for a
malformed stored hash the underlying bcrypt error (`ValueError`) propagates
out of `verify_password` instead of being treated as a verification
failure. -/
theorem verify_password_amended (pwMatches : String → String → Bool)
    (password hashed : String) :
    (isBcryptHash hashed = true →
      verify_password pwMatches password hashed = .ok (pwMatches password hashed)) ∧
    (isBcryptHash hashed = false →
      verify_password pwMatches password hashed = .error "Invalid salt") := by
  constructor <;> intro h <;> simp [verify_password, bcrypt_checkpw, h]

/-- Witness for C3 (amended) at concrete inputs. -/
theorem verify_password_amended_witness :
    verify_password (fun _ _ => true) "pw" demoHash = .ok true ∧
    verify_password (fun _ _ => true) "pw" "bad" = .error "Invalid salt" :=
  ⟨(verify_password_amended (fun _ _ => true) "pw" demoHash).1 (by decide),
   (verify_password_amended (fun _ _ => true) "pw" "bad").2 (by decide)⟩

/-! ## C8: authentication contract -/

/-- C8: `authenticate_user` returns the user exactly when the (normalized)
email lookup finds one and password verification succeeds; an unknown email
and a wrong password both produce the very same absent result (`.ok none`),
so the caller cannot tell them apart.  (Stored hashes are assumed
well-formed, as `hash_password` produces them.) -/
theorem authenticate_user_contract (pwMatches : String → String → Bool) (db : DB)
    (email password : String)
    (hwf : ∀ u, get_user_by_email db email = some u → isBcryptHash u.hashed_password = true) :
    (∀ u, authenticate_user pwMatches db email password = .ok (some u) ↔
      get_user_by_email db email = some u ∧ pwMatches password u.hashed_password = true) ∧
    (get_user_by_email db email = none →
      authenticate_user pwMatches db email password = .ok none) ∧
    (∀ u, get_user_by_email db email = some u →
      pwMatches password u.hashed_password = false →
      authenticate_user pwMatches db email password = .ok none) := by
  refine ⟨?_, ?_, ?_⟩
  · intro u
    cases hfind : get_user_by_email db email with
    | none =>
      simp only [authenticate_user, hfind]
      constructor
      · intro h; cases h
      · rintro ⟨h, -⟩; cases h
    | some v =>
      have hv := hwf v hfind
      simp only [authenticate_user, hfind, verify_password, bcrypt_checkpw, hv,
        if_true, eq_self_iff_true]
      by_cases hb : pwMatches password v.hashed_password = true
      · simp only [hb, if_true]
        constructor
        · intro h
          injection h with h
          injection h with h
          exact ⟨h ▸ rfl, h ▸ hb⟩
        · rintro ⟨hu, -⟩
          injection hu with hu
          simp [hu]
      · simp only [eq_false_of_ne_true hb, if_false]
        constructor
        · intro h; injection h with h; cases h
        · rintro ⟨hu, hmatch⟩
          injection hu with hu
          exact absurd (hu ▸ hmatch) hb
  · intro hfind; simp [authenticate_user, hfind]
  · intro u hfind hmatch
    simp [authenticate_user, hfind, verify_password, bcrypt_checkpw, hwf u hfind, hmatch]

/-- Witness for C8: in Alice's database, authenticating with a matching
verifier yields Alice, and with a failing verifier yields `.ok none`. -/
theorem authenticate_user_contract_witness :
    authenticate_user (fun _ _ => true) dbAlice "A@B.com" "password123" =
      .ok (some (create_user demoHashFn emptyDB aliceIn 0).2) ∧
    authenticate_user (fun _ _ => false) dbAlice "A@B.com" "wrong" = .ok none := by
  have hwf₁ : ∀ u, get_user_by_email dbAlice "A@B.com" = some u →
      isBcryptHash u.hashed_password = true := by
    intro u hu
    rw [show get_user_by_email dbAlice "A@B.com" =
      some (create_user demoHashFn emptyDB aliceIn 0).2 from by decide] at hu
    injection hu with hu
    rw [← hu]; decide
  refine ⟨((authenticate_user_contract (fun _ _ => true) dbAlice "A@B.com" "password123"
      hwf₁).1 (create_user demoHashFn emptyDB aliceIn 0).2).mpr ⟨by decide, rfl⟩, ?_⟩
  exact (authenticate_user_contract (fun _ _ => false) dbAlice "A@B.com" "wrong"
    hwf₁).2.2 (create_user demoHashFn emptyDB aliceIn 0).2 (by decide) rfl

/-! ## C7: case-insensitive email handling -/

/-- C7: creating a user stores the lowercased email; a lookup lowercases its
argument first, so after registering with email `p.email` (fresh in `db`),
looking up any casing `e₂` of it resolves to that same user; and a second
registration whose email `p₂.email` differs only in case fails with the 400
conflict and leaves the database unchanged. -/
theorem email_case_insensitive (hashPassword : String → String) (db : DB)
    (p : UserCreate) (now now₂ : ℚ) (e₂ : String) (p₂ : UserCreate)
    (hcase : pyLower e₂ = pyLower p.email)
    (hp₂ : pyLower p₂.email = pyLower p.email)
    (hfresh : get_user_by_email db p.email = none) :
    (create_user hashPassword db p now).2.email = pyLower p.email ∧
    get_user_by_email (create_user hashPassword db p now).1 e₂ =
      some (create_user hashPassword db p now).2 ∧
    register_user hashPassword db p now =
      ((create_user hashPassword db p now).1, .ok (create_user hashPassword db p now).2) ∧
    register_user hashPassword (create_user hashPassword db p now).1 p₂ now₂ =
      ((create_user hashPassword db p now).1, .error ⟨400, "Cet email est déjà utilisé."⟩) := by
  have hfind : ∀ e : String, pyLower e = pyLower p.email →
      get_user_by_email (create_user hashPassword db p now).1 e =
        some (create_user hashPassword db p now).2 := by
    intro e he
    have hnone : db.users.find? (fun u => u.email == pyLower e) = none := by
      rw [he]; exact hfresh
    simp only [get_user_by_email, create_user, List.find?_append, hnone,
      Option.none_or, List.find?]
    simp [he]
  refine ⟨rfl, hfind e₂ hcase, ?_, ?_⟩
  · simp [register_user, hfresh]
  · simp [register_user, hfind p₂.email hp₂]

/-- Witness for C7: registering `A@B.com`, then looking up `a@B.COM`, finds
the stored (lowercased) account, and registering `a@b.com` afterwards is
rejected with the conflict. -/
theorem email_case_insensitive_witness :
    get_user_by_email dbAlice "a@B.COM" = some (create_user demoHashFn emptyDB aliceIn 0).2 ∧
    register_user demoHashFn dbAlice
        { email := "a@b.com", full_name := "Bob", password := "password456" } 5 =
      (dbAlice, .error ⟨400, "Cet email est déjà utilisé."⟩) := by
  have h := email_case_insensitive demoHashFn emptyDB aliceIn 0 5 "a@B.COM"
    { email := "a@b.com", full_name := "Bob", password := "password456" }
    (by decide) (by decide) (by decide)
  exact ⟨h.2.1, h.2.2.2⟩

/-! ## C6: message history ordering and limit -/

/-- Inserting an element no earlier than every element of the list puts it
at the end. -/
theorem orderedInsert_eq_append {α} (r : α → α → Prop) [DecidableRel r] (a : α) :
    ∀ l : List α, (∀ b ∈ l, ¬ r a b) → l.orderedInsert r a = l ++ [a] := by
  intro l
  induction l with
  | nil => intro _; rfl
  | cons x xs ih =>
    intro h
    rw [List.orderedInsert, if_neg (h x (by simp)), ih (fun b hb => h b (by simp [hb]))]
    rfl

/-- Sorting a list that is already strictly sorted the opposite way reverses
it. -/
theorem insertionSort_eq_reverse {α} (r : α → α → Prop) [DecidableRel r] :
    ∀ l : List α, l.Pairwise (fun x y => ¬ r x y) → l.insertionSort r = l.reverse := by
  intro l
  induction l with
  | nil => intro _; rfl
  | cons a xs ih =>
    intro h
    rw [List.pairwise_cons] at h
    rw [List.insertionSort, ih h.2,
      orderedInsert_eq_append r a xs.reverse (fun b hb => h.1 b (List.mem_reverse.mp hb))]
    simp

/-- C6: with the user's stored messages in chronologically increasing order,
`list_messages` (which orders most-recent-first, limits, then reverses)
returns the last `limit` of them — the at most `limit` most recent ones,
oldest first; concretely, with messages M1..M5 a limit of 3 yields exactly
M3, M4, M5 in that order. -/
theorem list_messages_returns_recent_chronological (db : DB) (uid : Nat) (limit : Nat)
    (hasc : (db.messages.filter (fun m => m.user_id == uid)).Pairwise
      (fun x y => x.created_at < y.created_at)) :
    list_messages db uid limit =
      (db.messages.filter (fun m => m.user_id == uid)).drop
        ((db.messages.filter (fun m => m.user_id == uid)).length - limit) ∧
    list_messages sampleHistoryDB 1 3 =
      [{ id := 3, author := "Alice", content := "3", direction := "user"
         created_at := 3, user_id := 1 },
       { id := 4, author := "Alice", content := "4", direction := "user"
         created_at := 4, user_id := 1 },
       { id := 5, author := "Alice", content := "5", direction := "user"
         created_at := 5, user_id := 1 }] := by
  constructor
  · have hpair : (db.messages.filter (fun m => m.user_id == uid)).Pairwise
        (fun x y => ¬ msgDesc x y) :=
      hasc.imp (fun h => not_le.mpr h)
    rw [list_messages, insertionSort_eq_reverse msgDesc _ hpair, List.reverse_take]
    simp
  · decide

/-- Witness for C6: Alice's five sample messages are chronologically
increasing, and requesting the last three skips the first two. -/
theorem list_messages_witness :
    list_messages sampleHistoryDB 1 3 =
      (sampleHistoryDB.messages.filter (fun m => m.user_id == 1)).drop 2 := by
  have hfilter : sampleHistoryDB.messages.filter (fun m => m.user_id == 1) =
      sampleHistoryDB.messages := by decide
  have h := list_messages_returns_recent_chronological sampleHistoryDB 1 3 (by
    rw [hfilter]
    norm_num [sampleHistoryDB, dbAlice, create_user, create_message, demoHashFn,
      emptyDB, aliceIn, List.pairwise_cons])
  simpa using h.1

/-! ## Lemmas about the pending-reply lookup and the conflict phase -/

theorem head?_mem {α} {l : List α} {a : α} (h : l.head? = some a) : a ∈ l := by
  cases l with
  | nil => cases h
  | cons x xs => injection h with h; exact h ▸ List.mem_cons_self x xs

/-- The row `get_pending_reply_by_user` returns is a stored row of the given
user. -/
theorem get_pending_reply_by_user_mem {db : DB} {uid : Nat} {only : Bool}
    {ex : PendingReply} (h : get_pending_reply_by_user db uid only = some ex) :
    ex ∈ db.pending_replies ∧ ex.user_id = uid := by
  simp only [get_pending_reply_by_user] at h
  cases only with
  | false =>
    simp only [Bool.false_eq_true, if_false] at h
    have hmem := (List.mem_insertionSort pendDesc).mp (head?_mem h)
    have h1 := List.mem_filter.mp hmem
    exact ⟨h1.1, by simpa using h1.2⟩
  | true =>
    simp only [if_true] at h
    have hmem := (List.mem_insertionSort pendDesc).mp (head?_mem h)
    have h1 := List.mem_filter.mp hmem
    have h2 := List.mem_filter.mp h1.1
    exact ⟨h2.1, by simpa using h2.2⟩

theorem conflictPhase_none {db : DB} {uid : Nat} {now : ℚ}
    (h : get_pending_reply_by_user db uid false = none) :
    conflictPhase db uid now = .ok db := by
  simp [conflictPhase, h]

theorem conflictPhase_failed {db : DB} {uid : Nat} {now : ℚ} {ex : PendingReply}
    (h : get_pending_reply_by_user db uid false = some ex)
    (hst : ex.status = "failed") :
    conflictPhase db uid now = .ok (delete_pending_reply db ex) := by
  simp [conflictPhase, h, hst]

theorem conflictPhase_stale {db : DB} {uid : Nat} {now : ℚ} {ex : PendingReply}
    (h : get_pending_reply_by_user db uid false = some ex)
    (hst : ex.status ≠ "failed") (hage : 60 < now - ex.created_at) :
    conflictPhase db uid now = .ok (delete_pending_reply db ex) := by
  simp [conflictPhase, h, beq_eq_false_iff_ne.mpr hst, hage]

theorem conflictPhase_conflict {db : DB} {uid : Nat} {now : ℚ} {ex : PendingReply}
    (h : get_pending_reply_by_user db uid false = some ex)
    (hst : ex.status ≠ "failed") (hage : ¬ (60 < now - ex.created_at)) :
    conflictPhase db uid now =
      .error ⟨409, "Une réponse est déjà en attente pour cet utilisateur."⟩ := by
  simp [conflictPhase, h, beq_eq_false_iff_ne.mpr hst, hage]

/-- The conflict phase only ever removes pending rows; every other part of
the database, counters included, is untouched. -/
theorem conflictPhase_ok_shape {db : DB} {uid : Nat} {now : ℚ} {db1 : DB}
    (h : conflictPhase db uid now = .ok db1) :
    db1.messages = db.messages ∧ db1.users = db.users ∧
    db1.next_message_id = db.next_message_id ∧
    db1.next_pending_id = db.next_pending_id ∧
    db1.pending_replies.Sublist db.pending_replies := by
  unfold conflictPhase at h
  cases hg : get_pending_reply_by_user db uid false with
  | none =>
    rw [hg] at h
    injection h with h
    subst h
    exact ⟨rfl, rfl, rfl, rfl, List.Sublist.refl _⟩
  | some ex =>
    rw [hg] at h
    by_cases hst : (ex.status == "failed") = true
    · simp only [hst, if_true] at h
      injection h with h
      subst h
      refine ⟨rfl, rfl, rfl, rfl, ?_⟩
      simp only [delete_pending_reply]
      exact List.filter_sublist _
    · by_cases hage : (60 : ℚ) < now - ex.created_at
      · simp [hst, hage] at h
        subst h
        refine ⟨rfl, rfl, rfl, rfl, ?_⟩
        simp only [delete_pending_reply]
        exact List.filter_sublist _
      · simp [hst, hage] at h

/-- Deleting a freshly-appended pending row (id `n`) restores the previous
table. -/
theorem filter_fresh_pending (l : List PendingReply) (x : PendingReply) (n : Nat)
    (hx : x.id = n) (hfresh : ∀ p ∈ l, p.id ≠ n) :
    (l ++ [x]).filter (fun p => p.id != n) = l := by
  rw [List.filter_append]
  have h1 : l.filter (fun p => p.id != n) = l :=
    List.filter_eq_self.mpr (fun a ha => bne_iff_ne.mpr (hfresh a ha))
  simp [h1, hx]

/-- Deleting a freshly-appended message (id `n`) restores the previous
table. -/
theorem filter_fresh_message (l : List Message) (x : Message) (n : Nat)
    (hx : x.id = n) (hfresh : ∀ m ∈ l, m.id ≠ n) :
    (l ++ [x]).filter (fun m => m.id != n) = l := by
  rw [List.filter_append]
  have h1 : l.filter (fun m => m.id != n) = l :=
    List.filter_eq_self.mpr (fun a ha => bne_iff_ne.mpr (hfresh a ha))
  simp [h1, hx]

/-! ## C1: rollback on forwarding failure -/

/-- On a forwarding failure the handler deletes the two rows it just
created and re-raises the error: the resulting database is the conflict
phase's database with only the two autoincrement counters advanced. -/
theorem send_message_error_shape {db : DB} {payload : ChatRequest}
    {cu : User} {now : ℚ} {url : Option String} {net : NetOutcome} {db1 : DB}
    {fe : FwdError}
    (hid : payload.user_id = cu.id) (hids : IdsOK db)
    (hcp : conflictPhase db cu.id now = .ok db1)
    (hfwd : forward_to_n8n url net = .error fe) :
    (send_message db payload cu now url net).1 =
      { users := db1.users
        messages := db1.messages
        pending_replies := db1.pending_replies
        next_user_id := db1.next_user_id
        next_message_id := db1.next_message_id + 1
        next_pending_id := db1.next_pending_id + 1 } ∧
    (send_message db payload cu now url net).2 = .error (reraiseFwd fe) := by
  obtain ⟨hm, hu, hnm, hnp, hsub⟩ := conflictPhase_ok_shape hcp
  have hbne : (payload.user_id != cu.id) = false := by simp [hid]
  have hfreshp : ∀ p ∈ db1.pending_replies, p.id ≠ db1.next_pending_id := by
    intro p hp
    exact Nat.ne_of_lt (hnp ▸ hids.2.1 p (hsub.subset hp))
  have hfreshm : ∀ m ∈ db1.messages, m.id ≠ db1.next_message_id := by
    intro m hmem
    exact Nat.ne_of_lt (hnm ▸ hids.1 m (hm ▸ hmem))
  have hzp := filter_fresh_pending db1.pending_replies
    { id := db1.next_pending_id, user_id := cu.id, user_message_id := db1.next_message_id
      bot_message_id := none, status := "pending", created_at := now, updated_at := now }
    db1.next_pending_id rfl hfreshp
  have hzm := filter_fresh_message db1.messages
    { id := db1.next_message_id, author := cu.full_name, content := payload.content
      direction := "user", created_at := now, user_id := cu.id }
    db1.next_message_id rfl hfreshm
  constructor <;>
    simp only [send_message, hbne, Bool.false_eq_true, if_false, hcp,
      create_message, create_pending_reply, delete_pending_reply, delete_message, hfwd]
  rw [hzm, hzp]

/-- C1: when the outbound forwarding call fails — misconfigured webhook URL
(500), webhook HTTP error (502) or transport error — the chat handler
deletes the pending reply and user message it just created and re-raises the
error: the message table is exactly as before the request, and the pending
table is exactly as the conflict phase left it (no residue of the failed
submission blocks a later one). -/
theorem chat_forwarding_failure_rolls_back (db : DB) (payload : ChatRequest)
    (cu : User) (now : ℚ) (url : Option String) (net : NetOutcome) (db1 : DB)
    (fe : FwdError)
    (hid : payload.user_id = cu.id) (hids : IdsOK db)
    (hcp : conflictPhase db cu.id now = .ok db1)
    (hfwd : forward_to_n8n url net = .error fe) :
    (send_message db payload cu now url net).2 = .error (reraiseFwd fe) ∧
    (send_message db payload cu now url net).1.messages = db.messages ∧
    (send_message db payload cu now url net).1.pending_replies = db1.pending_replies := by
  obtain ⟨h1, h2⟩ := send_message_error_shape hid hids hcp hfwd
  obtain ⟨hm, hu, hnm, hnp, hsub⟩ := conflictPhase_ok_shape hcp
  refine ⟨h2, ?_, ?_⟩
  · rw [h1]
    exact hm
  · rw [h1]

/-- Witness for C1: submitting with no webhook URL configured fails with the
500 misconfiguration error and leaves Alice's database without any new
message or pending row. -/
theorem chat_forwarding_failure_rolls_back_witness :
    (send_message dbAlice { content := "x", user_id := 1 }
        (create_user demoHashFn emptyDB aliceIn 0).2 0 none (.response 200 "" none)).2 =
      .error ⟨500, "La variable N8N_WEBHOOK_URL n'est pas configurée."⟩ ∧
    (send_message dbAlice { content := "x", user_id := 1 }
        (create_user demoHashFn emptyDB aliceIn 0).2 0 none (.response 200 "" none)).1.messages =
      dbAlice.messages := by
  have h := chat_forwarding_failure_rolls_back dbAlice { content := "x", user_id := 1 }
    (create_user demoHashFn emptyDB aliceIn 0).2 0 none (.response 200 "" none) dbAlice
    (.httpException 500 "La variable N8N_WEBHOOK_URL n'est pas configurée.")
    rfl (by refine ⟨?_, ?_, ?_⟩ <;> decide) rfl rfl
  exact ⟨h.1, h.2.1⟩

/-! ## C2: the conflict / staleness check of `POST /api/chat` -/

/-- When the conflict phase lets a submission through and the webhook call
succeeds, the pending table is the conflict phase's table plus the one new
`"pending"` row, and the 201 response is returned. -/
theorem send_message_ok_shape {db : DB} {payload : ChatRequest} {cu : User}
    {now : ℚ} {url : Option String} {net : NetOutcome} {db1 : DB}
    {body : List (String × String)}
    (hid : payload.user_id = cu.id)
    (hcp : conflictPhase db cu.id now = .ok db1)
    (hfwd : forward_to_n8n url net = .ok body) :
    (send_message db payload cu now url net).1 =
      { users := db1.users
        messages := db1.messages ++
          [{ id := db1.next_message_id, author := cu.full_name
             content := payload.content, direction := "user"
             created_at := now, user_id := cu.id }]
        pending_replies := db1.pending_replies ++
          [{ id := db1.next_pending_id, user_id := cu.id
             user_message_id := db1.next_message_id, bot_message_id := none
             status := "pending", created_at := now, updated_at := now }]
        next_user_id := db1.next_user_id
        next_message_id := db1.next_message_id + 1
        next_pending_id := db1.next_pending_id + 1 } ∧
    ∃ r, (send_message db payload cu now url net).2 = .ok r := by
  have hbne : (payload.user_id != cu.id) = false := by simp [hid]
  constructor <;>
    simp only [send_message, hbne, Bool.false_eq_true, if_false, hcp, hfwd,
      create_message, create_pending_reply]
  exact ⟨_, rfl⟩

/-- C2: with `ex` the caller's most recent pending reply (any status): if its
status is `"failed"` it is deleted and the submission proceeds; otherwise,
if its age (computed from its creation timestamp, a naive stored value being
read as UTC) exceeds 60 seconds it is deleted and the submission proceeds —
in both cases no row with `ex`'s id survives; otherwise the request fails
with the 409 conflict and the database is returned unchanged (no new Message
or PendingReply). -/
theorem chat_stale_pending_check (db : DB) (cu : User) (payload : ChatRequest)
    (now : ℚ) (url : Option String) (net : NetOutcome) (ex : PendingReply)
    (body : List (String × String))
    (hid : payload.user_id = cu.id) (hids : IdsOK db)
    (hex : get_pending_reply_by_user db cu.id false = some ex)
    (hfwd : forward_to_n8n url net = .ok body) :
    (ex.status = "failed" →
      (∃ r, (send_message db payload cu now url net).2 = .ok r) ∧
      ∀ q ∈ (send_message db payload cu now url net).1.pending_replies, q.id ≠ ex.id) ∧
    (ex.status ≠ "failed" → 60 < now - ex.created_at →
      (∃ r, (send_message db payload cu now url net).2 = .ok r) ∧
      ∀ q ∈ (send_message db payload cu now url net).1.pending_replies, q.id ≠ ex.id) ∧
    (ex.status ≠ "failed" → ¬ (60 < now - ex.created_at) →
      send_message db payload cu now url net =
        (db, .error ⟨409, "Une réponse est déjà en attente pour cet utilisateur."⟩)) := by
  have hmem := get_pending_reply_by_user_mem hex
  have main : conflictPhase db cu.id now = .ok (delete_pending_reply db ex) →
      (∃ r, (send_message db payload cu now url net).2 = .ok r) ∧
      ∀ q ∈ (send_message db payload cu now url net).1.pending_replies, q.id ≠ ex.id := by
    intro hcp
    obtain ⟨hpe, hok⟩ := send_message_ok_shape hid hcp hfwd
    refine ⟨hok, ?_⟩
    intro q hq
    rw [hpe] at hq
    rcases List.mem_append.mp hq with hq | hq
    · have hq' : q ∈ db.pending_replies ∧ ¬ q.id = ex.id := by
        simpa [delete_pending_reply] using hq
      exact hq'.2
    · rcases List.mem_singleton.mp hq with rfl
      have hlt := hids.2.1 ex hmem.1
      simpa [delete_pending_reply] using (Nat.ne_of_lt hlt).symm
  refine ⟨fun hst => main (conflictPhase_failed hex hst),
          fun hst hage => main (conflictPhase_stale hex hst hage),
          fun hst hage => ?_⟩
  have hcp := conflictPhase_conflict hex hst hage
  have hbne : (payload.user_id != cu.id) = false := by simp [hid]
  simp [send_message, hbne, hcp]

/-- Witness for C2: with Alice's pending reply only 30 seconds old and still
`"pending"`, a new submission is rejected with the 409 conflict and the
database is unchanged. -/
theorem chat_stale_pending_check_witness :
    send_message dbAlicePending { content := "x", user_id := 1 }
        (create_user demoHashFn emptyDB aliceIn 0).2 30 (some "http://n8n")
        (.response 200 "ok" none) =
      (dbAlicePending, .error ⟨409, "Une réponse est déjà en attente pour cet utilisateur."⟩) := by
  have h := chat_stale_pending_check dbAlicePending
    (create_user demoHashFn emptyDB aliceIn 0).2 { content := "x", user_id := 1 }
    30 (some "http://n8n") (.response 200 "ok" none) pendingAt0 [("reply", "ok")]
    rfl (by refine ⟨?_, ?_, ?_⟩ <;> decide) (by decide) rfl
  exact h.2.2 (by decide) (by norm_num [pendingAt0])

/-! ## C10: only the most recent pending row is consulted -/

/-- Errors escaping `forward_to_n8n` re-raise as status 500 or 502 — never
as the 409 conflict. -/
theorem forward_error_status {url : Option String} {net : NetOutcome} {fe : FwdError}
    (h : forward_to_n8n url net = .error fe) :
    (reraiseFwd fe).statusCode = 500 ∨ (reraiseFwd fe).statusCode = 502 := by
  unfold forward_to_n8n at h
  cases url with
  | none =>
    injection h with h
    subst h
    left; rfl
  | some u =>
    cases net with
    | transportError msg =>
      injection h with h
      subst h
      right; rfl
    | response s text j =>
      by_cases hs : 400 ≤ s
      · simp only [hs, if_true] at h
        injection h with h
        subst h
        right; rfl
      · simp only [hs, if_false] at h
        cases j with
        | some body => cases h
        | none => cases h

/-- C10: the conflict/staleness check inspects only the caller's single
most-recently-created pending reply: every stored row other than the one
`get_pending_reply_by_user` returns survives the submission untouched
(whatever its status or age), and a 409 conflict can only arise because the
most recent row itself is non-failed and at most 60 seconds old. -/
theorem conflict_check_only_most_recent (db : DB) (cu : User) (payload : ChatRequest)
    (now : ℚ) (url : Option String) (net : NetOutcome) (q : PendingReply)
    (hid : payload.user_id = cu.id) (hids : IdsOK db)
    (hq : q ∈ db.pending_replies)
    (hnot : get_pending_reply_by_user db cu.id false ≠ some q) :
    q ∈ (send_message db payload cu now url net).1.pending_replies ∧
    ((send_message db payload cu now url net).2 =
        .error ⟨409, "Une réponse est déjà en attente pour cet utilisateur."⟩ →
      ∃ ex, get_pending_reply_by_user db cu.id false = some ex ∧
        ex.status ≠ "failed" ∧ now - ex.created_at ≤ 60) := by
  have hsurv : ∀ db1, conflictPhase db cu.id now = .ok db1 → q ∈ db1.pending_replies →
      q ∈ (send_message db payload cu now url net).1.pending_replies := by
    intro db1 hcp hq1
    cases hfwd : forward_to_n8n url net with
    | ok body =>
      rw [(send_message_ok_shape hid hcp hfwd).1]
      exact List.mem_append_left _ hq1
    | error fe =>
      rw [(send_message_error_shape hid hids hcp hfwd).1]
      exact hq1
  have no409 : ∀ db1, conflictPhase db cu.id now = .ok db1 →
      (send_message db payload cu now url net).2 ≠
        .error ⟨409, "Une réponse est déjà en attente pour cet utilisateur."⟩ := by
    intro db1 hcp h409
    cases hfwd : forward_to_n8n url net with
    | ok body =>
      obtain ⟨r, hr⟩ := (send_message_ok_shape hid hcp hfwd).2
      rw [hr] at h409
      cases h409
    | error fe =>
      rw [(send_message_error_shape hid hids hcp hfwd).2] at h409
      injection h409 with h409
      rcases forward_error_status hfwd with h | h <;> rw [h409] at h <;> simp at h
  cases hg : get_pending_reply_by_user db cu.id false with
  | none =>
    have hcp := @conflictPhase_none db cu.id now hg
    exact ⟨hsurv db hcp hq, fun h409 => absurd h409 (no409 db hcp)⟩
  | some ex =>
    have hexq : q.id ≠ ex.id := by
      intro hidq
      have hexmem := (get_pending_reply_by_user_mem hg).1
      have hqe : q = ex := List.inj_on_of_nodup_map hids.2.2 hq hexmem hidq
      exact hnot (by rw [hqe]; exact hg)
    have hdel : q ∈ (delete_pending_reply db ex).pending_replies := by
      simp only [delete_pending_reply, List.mem_filter]
      exact ⟨hq, bne_iff_ne.mpr hexq⟩
    by_cases hst : ex.status = "failed"
    · have hcp := @conflictPhase_failed db cu.id now ex hg hst
      exact ⟨hsurv _ hcp hdel, fun h409 => absurd h409 (no409 _ hcp)⟩
    · by_cases hage : (60 : ℚ) < now - ex.created_at
      · have hcp := conflictPhase_stale hg hst hage
        exact ⟨hsurv _ hcp hdel, fun h409 => absurd h409 (no409 _ hcp)⟩
      · have hcp := conflictPhase_conflict hg hst hage
        have hbne : (payload.user_id != cu.id) = false := by simp [hid]
        have hres : send_message db payload cu now url net =
            (db, .error ⟨409, "Une réponse est déjà en attente pour cet utilisateur."⟩) := by
          simp [send_message, hbne, hcp]
        exact ⟨by rw [hres]; exact hq, fun _ => ⟨ex, rfl, hst, not_lt.mp hage⟩⟩

/-- Witness for C10: in a database where Alice's older pending reply is
still live (created at time 0) but her most recent one already failed, a
submission at time 5 proceeds and the older, fresh, still-pending row is
neither deleted nor the source of a conflict. -/
theorem conflict_check_only_most_recent_witness :
    pendingAt0 ∈ (send_message dbTwoPendings { content := "x", user_id := 1 }
      (create_user demoHashFn emptyDB aliceIn 0).2 5 (some "http://n8n")
      (.response 200 "ok" none)).1.pending_replies := by
  have h := conflict_check_only_most_recent dbTwoPendings
    (create_user demoHashFn emptyDB aliceIn 0).2 { content := "x", user_id := 1 }
    5 (some "http://n8n") (.response 200 "ok" none) pendingAt0
    rfl (by refine ⟨?_, ?_, ?_⟩ <;> decide) (by decide) (by decide)
  exact h.1

/-! ## C4: the callback endpoint -/

/-- C4: for a callback carrying an originating message id (with the callback
token accepted): no pending reply referencing that id → 404 and no state
change; the referenced pending reply not in status `"pending"` → 409
conflict and no state change (not replayable); otherwise a bot message with
direction `"n8n"` and the reply text is created for the pending reply's own
user, and the row transitions to `"completed"` with its bot-message
reference set to the new message. -/
theorem callback_transitions (settings : Settings) (db : DB)
    (payload : N8nCallbackPayload) (tok : Option String) (now : ℚ)
    (htok : callbackTokenRejected settings.n8n_callback_token tok = false) :
    (get_pending_reply_by_message_id db payload.message_id = none →
      receive_n8n_callback settings db payload tok now =
        (db, .error ⟨404, "Message utilisateur introuvable."⟩)) ∧
    (∀ pending, get_pending_reply_by_message_id db payload.message_id = some pending →
      pending.status ≠ "pending" →
      receive_n8n_callback settings db payload tok now =
        (db, .error ⟨409, "Ce message a déjà été traité."⟩)) ∧
    (∀ pending, get_pending_reply_by_message_id db payload.message_id = some pending →
      pending.status = "pending" →
      (receive_n8n_callback settings db payload tok now).1.messages =
        db.messages ++ [{ id := db.next_message_id
                          author := authorOrDefault payload.author "n8n"
                          content := payload.reply, direction := "n8n"
                          created_at := now, user_id := pending.user_id }] ∧
      (receive_n8n_callback settings db payload tok now).1.pending_replies =
        db.pending_replies.map (fun q => if q.id == pending.id then
          { pending with bot_message_id := some db.next_message_id
                         status := "completed", updated_at := now } else q) ∧
      ∃ r, (receive_n8n_callback settings db payload tok now).2 = .ok r) := by
  refine ⟨?_, ?_, ?_⟩
  · intro hnone
    simp [receive_n8n_callback, htok, hnone]
  · intro pending hfind hst
    simp [receive_n8n_callback, htok, hfind, bne_iff_ne.mpr hst]
  · intro pending hfind hst
    have hbne : (pending.status != "pending") = false := by simp [hst]
    refine ⟨?_, ?_, ?_⟩ <;>
      simp only [receive_n8n_callback, htok, Bool.false_eq_true, if_false, hfind,
        hbne, create_message, complete_pending_reply, updatePending]
    exact ⟨_, rfl⟩

/-- Witness for C4: delivering the callback for Alice's pending message
creates the `"n8n"` bot message. -/
theorem callback_transitions_witness :
    (receive_n8n_callback defaultSettings dbAlicePending
        { message_id := 1, reply := "bonjour", author := none } none 3).1.messages =
      dbAlicePending.messages ++
        [{ id := 2, author := "n8n", content := "bonjour", direction := "n8n"
           created_at := 3, user_id := 1 }] := by
  have h := callback_transitions defaultSettings dbAlicePending
    { message_id := 1, reply := "bonjour", author := none } none 3 rfl
  exact (h.2.2 pendingAt0 (by decide) rfl).1

/-! ## C5: the pending-reply state machine -/

/-- Rows with equal ids in a table with distinct ids are equal. -/
theorem nodup_ids_eq {l : List PendingReply} (hn : (l.map (fun p => p.id)).Nodup)
    {p p' : PendingReply} (hp : p ∈ l) (hp' : p' ∈ l) (hid : p'.id = p.id) : p' = p :=
  List.inj_on_of_nodup_map hn hp' hp hid

/-- `updatePending` keeps the table's id column unchanged. -/
theorem updatePending_ids (db : DB) (p : PendingReply) :
    (updatePending db p).pending_replies.map (fun q => q.id) =
      db.pending_replies.map (fun q => q.id) := by
  simp only [updatePending, List.map_map]
  refine List.map_congr_left (fun q hq => ?_)
  by_cases h : q.id = p.id <;> simp [h]

/-- A row of an updated table is the replacement or an untouched old row. -/
theorem mem_updatePending {db : DB} {p q' : PendingReply}
    (h : q' ∈ (updatePending db p).pending_replies) :
    q' = p ∨ q' ∈ db.pending_replies := by
  simp only [updatePending, List.mem_map] at h
  obtain ⟨q, hq, hq'⟩ := h
  by_cases hb : (q.id == p.id) = true
  · rw [if_pos hb] at hq'
    exact Or.inl hq'.symm
  · rw [if_neg hb] at hq'
    exact Or.inr (hq' ▸ hq)

/-- A database left unchanged keeps well-formedness and touches no row. -/
theorem unchanged_preserves {db : DB} (h : DBWF db) :
    DBWF db ∧ ∀ p p', p ∈ db.pending_replies → p' ∈ db.pending_replies →
      p'.id = p.id → p.status ≠ "pending" → p' = p :=
  ⟨h, fun _ _ hp hp' hid _ => nodup_ids_eq h.1.2.2 hp hp' hid⟩

/-- Replacing a still-`"pending"` row by a well-formed row with the same id
(in a database `dbx` that differs from `db` only outside the pending table)
preserves well-formedness and modifies no non-pending row. -/
theorem updatePending_preserves {db dbx : DB} {pending xp : PendingReply}
    (hpend : dbx.pending_replies = db.pending_replies)
    (hnp : dbx.next_pending_id = db.next_pending_id)
    (hmsgok : ∀ m ∈ dbx.messages, m.id < dbx.next_message_id)
    (h : DBWF db)
    (hpmem : pending ∈ db.pending_replies)
    (hstp : pending.status = "pending")
    (hxid : xp.id = pending.id)
    (hxwf : PendingWF xp) :
    DBWF (updatePending dbx xp) ∧
    ∀ p p', p ∈ db.pending_replies → p' ∈ (updatePending dbx xp).pending_replies →
      p'.id = p.id → p.status ≠ "pending" → p' = p := by
  obtain ⟨⟨hmid, hpid, hnodup⟩, hwf⟩ := h
  have hids : (updatePending dbx xp).pending_replies.map (fun q => q.id) =
      db.pending_replies.map (fun q => q.id) := by
    rw [updatePending_ids, hpend]
  have hmem' : ∀ p' ∈ (updatePending dbx xp).pending_replies,
      p' = xp ∨ p' ∈ db.pending_replies := by
    intro p' hp'
    rcases mem_updatePending hp' with h' | h'
    · exact Or.inl h'
    · exact Or.inr (hpend ▸ h')
  refine ⟨⟨⟨?_, ?_, ?_⟩, ?_⟩, ?_⟩
  · intro m hm'
    exact hmsgok m hm'
  · intro p hp'
    have hpin : p.id ∈ (updatePending dbx xp).pending_replies.map (fun q => q.id) :=
      List.mem_map_of_mem _ hp'
    rw [hids] at hpin
    obtain ⟨q, hq, hqid⟩ := List.mem_map.mp hpin
    have : (updatePending dbx xp).next_pending_id = db.next_pending_id := hnp
    rw [this, ← hqid]
    exact hpid q hq
  · rw [hids]
    exact hnodup
  · intro p' hp'
    rcases hmem' p' hp' with rfl | h'
    · exact hxwf
    · exact hwf p' h'
  · intro p p' hp hp' hidq hterm
    rcases hmem' p' hp' with rfl | h'
    · exfalso
      have hpe : pending = p := nodup_ids_eq hnodup hp hpmem (hxid ▸ hidq)
      exact hterm (hpe ▸ hstp)
    · exact nodup_ids_eq hnodup hp h' hidq

theorem emptyDB_wf : DBWF emptyDB := by
  refine ⟨⟨?_, ?_, ?_⟩, ?_⟩ <;> simp [emptyDB]

/-- One API operation preserves the pending-table invariant and never
modifies a row that has left status `"pending"`. -/
theorem applyOp_preserves (db : DB) (op : ApiOp) (h : DBWF db) :
    DBWF (applyOp db op) ∧
    ∀ p p', p ∈ db.pending_replies → p' ∈ (applyOp db op).pending_replies →
      p'.id = p.id → p.status ≠ "pending" → p' = p := by
  obtain ⟨⟨hmid, hpid, hnodup⟩, hwf⟩ := h
  have hWF : DBWF db := ⟨⟨hmid, hpid, hnodup⟩, hwf⟩
  cases op with
  | register hash payload now =>
    have hreg : (register_user hash db payload now).1.pending_replies = db.pending_replies ∧
        (register_user hash db payload now).1.messages = db.messages ∧
        (register_user hash db payload now).1.next_message_id = db.next_message_id ∧
        (register_user hash db payload now).1.next_pending_id = db.next_pending_id := by
      by_cases hdup : (get_user_by_email db payload.email).isSome = true
      · simp [register_user, hdup]
      · simp [register_user, hdup, create_user]
    simp only [applyOp]
    obtain ⟨h1, h2, h3, h4⟩ := hreg
    refine ⟨⟨⟨?_, ?_, ?_⟩, ?_⟩, ?_⟩
    · intro m hm'; rw [h2] at hm'; rw [h3]; exact hmid m hm'
    · intro p hp'; rw [h1] at hp'; rw [h4]; exact hpid p hp'
    · rw [h1]; exact hnodup
    · intro p hp'; rw [h1] at hp'; exact hwf p hp'
    · intro p p' hp hp' hidq _
      rw [h1] at hp'
      exact nodup_ids_eq hnodup hp hp' hidq
  | chat payload uid now url net =>
    simp only [applyOp]
    cases hu : db.users.find? (fun u => u.id == uid) with
    | none => exact unchanged_preserves hWF
    | some cu =>
      dsimp only
      by_cases hbid : (payload.user_id != cu.id) = true
      · have hrw : (send_message db payload cu now url net).1 = db := by
          simp [send_message, hbid]
        rw [hrw]
        exact unchanged_preserves hWF
      · have hid : payload.user_id = cu.id := by simpa using hbid
        cases hcp : conflictPhase db cu.id now with
        | error e =>
          have hbne : (payload.user_id != cu.id) = false := by simp [hid]
          have hrw : (send_message db payload cu now url net).1 = db := by
            simp [send_message, hbne, hcp]
          rw [hrw]
          exact unchanged_preserves hWF
        | ok db1 =>
          obtain ⟨hm, husers, hnm, hnp, hsub⟩ := conflictPhase_ok_shape hcp
          have hids1 : IdsOK db1 := by
            refine ⟨?_, ?_, ?_⟩
            · intro m hm'; rw [hm] at hm'; rw [hnm]; exact hmid m hm'
            · intro p hp'; rw [hnp]; exact hpid p (hsub.subset hp')
            · exact hnodup.sublist (hsub.map (fun p => p.id))
          have hwf1 : ∀ p ∈ db1.pending_replies, PendingWF p :=
            fun p hp => hwf p (hsub.subset hp)
          cases hfwd : forward_to_n8n url net with
          | ok body =>
            rw [(send_message_ok_shape hid hcp hfwd).1]
            refine ⟨⟨⟨?_, ?_, ?_⟩, ?_⟩, ?_⟩
            · intro m hm'
              rcases List.mem_append.mp hm' with hm' | hm'
              · exact Nat.lt_succ_of_lt (hids1.1 m hm')
              · rcases List.mem_singleton.mp hm' with rfl
                exact Nat.lt_succ_self _
            · intro p hp'
              rcases List.mem_append.mp hp' with hp' | hp'
              · exact Nat.lt_succ_of_lt (hids1.2.1 p hp')
              · rcases List.mem_singleton.mp hp' with rfl
                exact Nat.lt_succ_self _
            · rw [List.map_append]
              refine List.Nodup.append hids1.2.2 (List.nodup_singleton _) ?_
              intro a ha hb
              simp only [List.map_cons, List.map_nil, List.mem_singleton] at hb
              subst hb
              obtain ⟨q, hq, hqid⟩ := List.mem_map.mp ha
              exact absurd (hqid ▸ hids1.2.1 q hq) (lt_irrefl _)
            · intro p hp'
              rcases List.mem_append.mp hp' with hp' | hp'
              · exact hwf1 p hp'
              · rcases List.mem_singleton.mp hp' with rfl
                exact ⟨Or.inl rfl, by simp⟩
            · intro p p' hp hp' hidq _
              rcases List.mem_append.mp hp' with hp' | hp'
              · exact nodup_ids_eq hnodup hp (hsub.subset hp') hidq
              · rcases List.mem_singleton.mp hp' with rfl
                exfalso
                have hlt : p.id < db1.next_pending_id := hnp ▸ hpid p hp
                exact (Nat.ne_of_lt hlt).symm hidq
          | error fe =>
            rw [(send_message_error_shape hid ⟨hmid, hpid, hnodup⟩ hcp hfwd).1]
            refine ⟨⟨⟨?_, ?_, ?_⟩, ?_⟩, ?_⟩
            · intro m hm'
              exact Nat.lt_succ_of_lt (hids1.1 m hm')
            · intro p hp'
              exact Nat.lt_succ_of_lt (hids1.2.1 p hp')
            · exact hids1.2.2
            · intro p hp'
              exact hwf1 p hp'
            · intro p p' hp hp' hidq _
              exact nodup_ids_eq hnodup hp (hsub.subset hp') hidq
  | failReport pid uid now =>
    simp only [applyOp]
    cases hu : db.users.find? (fun u => u.id == uid) with
    | none => exact unchanged_preserves hWF
    | some cu =>
      dsimp only
      cases hfp : get_pending_reply_by_id db pid (some cu) with
      | none =>
        have hrw : (fail_pending db pid cu now).1 = db := by simp [fail_pending, hfp]
        rw [hrw]
        exact unchanged_preserves hWF
      | some pending =>
        have hpmem : pending ∈ db.pending_replies := by
          unfold get_pending_reply_by_id at hfp
          exact List.mem_of_find?_eq_some hfp
        by_cases hst : (pending.status != "pending") = true
        · have hrw : (fail_pending db pid cu now).1 = db := by
            simp [fail_pending, hfp, hst]
          rw [hrw]
          exact unchanged_preserves hWF
        · have hstp : pending.status = "pending" := by simpa using hst
          have hbot : pending.bot_message_id.isSome = false := by
            rcases hb : pending.bot_message_id.isSome with _ | _
            · rfl
            · have := (hwf pending hpmem).2.mp hb
              rw [hstp] at this
              exact absurd this (by decide)
          have hrw : (fail_pending db pid cu now).1 =
              updatePending db { pending with status := "failed", updated_at := now } := by
            simp [fail_pending, hfp, hst, fail_pending_reply]
          rw [hrw]
          refine updatePending_preserves rfl rfl hmid hWF hpmem hstp rfl ?_
          refine ⟨Or.inr (Or.inr rfl), ?_⟩
          simp only []
          rw [hbot]
          constructor
          · intro hfalse; cases hfalse
          · intro hc; exact absurd hc (by decide)
  | callback s payload tok now =>
    simp only [applyOp]
    by_cases htok : callbackTokenRejected s.n8n_callback_token tok = true
    · have hrw : (receive_n8n_callback s db payload tok now).1 = db := by
        simp [receive_n8n_callback, htok]
      rw [hrw]
      exact unchanged_preserves hWF
    · cases hfind : get_pending_reply_by_message_id db payload.message_id with
      | none =>
        have hrw : (receive_n8n_callback s db payload tok now).1 = db := by
          simp [receive_n8n_callback, htok, hfind]
        rw [hrw]
        exact unchanged_preserves hWF
      | some pending =>
        have hpmem : pending ∈ db.pending_replies := by
          unfold get_pending_reply_by_message_id at hfind
          exact List.mem_of_find?_eq_some hfind
        by_cases hst : (pending.status != "pending") = true
        · have hrw : (receive_n8n_callback s db payload tok now).1 = db := by
            simp [receive_n8n_callback, htok, hfind, hst]
          rw [hrw]
          exact unchanged_preserves hWF
        · have hstp : pending.status = "pending" := by simpa using hst
          have hrw : (receive_n8n_callback s db payload tok now).1 =
              updatePending
                { db with
                    messages := db.messages ++
                      [{ id := db.next_message_id
                         author := authorOrDefault payload.author "n8n"
                         content := payload.reply, direction := "n8n"
                         created_at := now, user_id := pending.user_id }]
                    next_message_id := db.next_message_id + 1 }
                { pending with bot_message_id := some db.next_message_id
                               status := "completed", updated_at := now } := by
            simp [receive_n8n_callback, htok, hfind, hst, create_message,
              complete_pending_reply]
          rw [hrw]
          refine updatePending_preserves rfl rfl ?_ hWF hpmem hstp rfl ?_
          · intro m hm'
            rcases List.mem_append.mp hm' with hm' | hm'
            · exact Nat.lt_succ_of_lt (hmid m hm')
            · rcases List.mem_singleton.mp hm' with rfl
              exact Nat.lt_succ_self _
          · exact ⟨Or.inr (Or.inl rfl), by simp⟩

/-- C5: in every database reachable from the empty database through the API
operations, each pending reply has status `"pending"`, `"completed"` or
`"failed"` and carries a bot-message reference exactly when completed; and
no further API operation changes a row whose status is `"completed"` or
`"failed"` — terminal rows can only disappear, never transition. -/
theorem pending_reply_state_machine (ops : List ApiOp) :
    (∀ p ∈ (applyOps emptyDB ops).pending_replies,
      (p.status = "pending" ∨ p.status = "completed" ∨ p.status = "failed") ∧
      (p.bot_message_id.isSome ↔ p.status = "completed")) ∧
    (∀ op p p', p ∈ (applyOps emptyDB ops).pending_replies →
      p' ∈ (applyOp (applyOps emptyDB ops) op).pending_replies →
      p'.id = p.id → (p.status = "completed" ∨ p.status = "failed") → p' = p) := by
  have hwf : DBWF (applyOps emptyDB ops) := by
    suffices hgen : ∀ db, DBWF db → DBWF (applyOps db ops) from hgen emptyDB emptyDB_wf
    induction ops with
    | nil => intro db h; exact h
    | cons op ops ih =>
      intro db h
      exact ih _ (applyOp_preserves db op h).1
  constructor
  · intro p hp
    exact hwf.2 p hp
  · intro op p p' hp hp' hidq hterm
    refine (applyOp_preserves _ op hwf).2 p p' hp hp' hidq ?_
    rcases hterm with h' | h' <;> rw [h'] <;> decide

/-- Witness for C5: after the session `demoOps` the completed row is stored
with its bot-message reference set exactly as the invariant demands. -/
theorem pending_reply_state_machine_witness :
    completedRow ∈ (applyOps emptyDB demoOps).pending_replies ∧
    (completedRow.bot_message_id.isSome ↔ completedRow.status = "completed") := by
  have h := pending_reply_state_machine demoOps
  exact ⟨by decide, (h.1 completedRow (by decide)).2⟩

end ChatApp
